import Mathlib

/-!
Verification of the Nexus knowledge-graph core: the typed node/edge graph
model with hierarchy invariants, the depth-parameterized context-extraction
engine (F0/F1/F2), the multi-canvas registry, and the frontend handlers that
call them.  The backend engine itself (GraphStore, HierarchyPolicy,
ContextEngine, CanvasRegistry) is modelled from the specification; frontend
handlers are embedded from the React sources.
-/

namespace Nexus

/-- Modelled from the spec: node types of the backend graph model
(`topic | module | child`), backend `backend/` sources absent. -/
inductive NodeType where
  | topic
  | module
  | child
deriving DecidableEq, Repr

/-- Modelled from the spec: hierarchy rank table, topic=0, module=1, child=2. -/
def rank : NodeType → Nat
  | .topic => 0
  | .module => 1
  | .child => 2

/-- Modelled from the spec: a graph node record (backend `GraphStore` node,
absent from the sources).  `tags` is a list of strings, `color` and
`position` are optional pass-through fields. -/
structure Node where
  id : String
  node_type : NodeType
  title : String
  summary : String
  content : String
  tags : List String
  main_topic : String
  module : String
  color : Option String
  position : Option (Int × Int)
deriving DecidableEq, Repr

/-- Modelled from the spec: edge kinds, `hierarchical` (rank-constrained) or
`associative` (free, justified). -/
inductive EdgeKind where
  | hierarchical
  | associative
deriving DecidableEq, Repr

/-- Modelled from the spec: a directed edge keyed by `(source, target)` with a
free-text justification. -/
structure Edge where
  source : String
  target : String
  justification : String
  kind : EdgeKind
deriving DecidableEq, Repr

/-- Modelled from the spec: the per-canvas graph store (nodes and edges),
backend implementation absent from the sources. -/
structure GraphStore where
  nodes : List Node
  edges : List Edge
deriving DecidableEq, Repr

/-- The empty graph store a fresh canvas starts with. -/
def GraphStore.empty : GraphStore := ⟨[], []⟩

/-- Modelled from the spec: the typed-failure taxonomy of graph mutations. -/
inductive GraphError where
  | duplicateNode
  | notFound
  | hierarchyViolation
  | selfLoop
  | emptyJustification
deriving DecidableEq, Repr

/-- Look a node up by id. -/
def GraphStore.findNode (g : GraphStore) (id : String) : Option Node :=
  g.nodes.find? (fun n => n.id == id)

/-- Modelled from the spec: `addEdge(source, target, justification, kind)`.
Fails with `NotFoundError` if either endpoint is missing, with
`HierarchyViolationError` if `kind = hierarchical` and the source rank is not
strictly greater than the target rank, with `SelfLoopError` on a self loop,
and requires a non-empty justification at creation.  Re-creating an existing
ordered pair overwrites it (no duplicate directed edge). -/
def GraphStore.addEdge (g : GraphStore) (source target justification : String)
    (kind : EdgeKind) : Except GraphError GraphStore :=
  match g.findNode source, g.findNode target with
  | some ns, some nt =>
    if kind = .hierarchical ∧ ¬ rank ns.node_type > rank nt.node_type then
      .error .hierarchyViolation
    else if source = target then
      .error .selfLoop
    else if justification = "" then
      .error .emptyJustification
    else
      .ok { g with
            edges := (g.edges.filter
                (fun e => ! (e.source == source && e.target == target)))
              ++ [⟨source, target, justification, kind⟩] }
  | _, _ => .error .notFound

/-- The edge list the caller observes after an `addEdge` attempt: on a typed
failure no state changes, so the store keeps its old edges. -/
def addEdgeEdges (g : GraphStore) (source target justification : String)
    (kind : EdgeKind) : List Edge :=
  match g.addEdge source target justification kind with
  | .ok g' => g'.edges
  | .error _ => g.edges

/-- Whether `id` is an endpoint of `e`. -/
def incident (id : String) (e : Edge) : Bool :=
  e.source == id || e.target == id

/-- Modelled from the spec: `deleteNode(id)` cascades deletion to every
incident edge and fails with `NotFoundError` if the node is missing. -/
def GraphStore.deleteNode (g : GraphStore) (id : String) :
    Except GraphError GraphStore :=
  if g.nodes.any (fun n => n.id == id) then
    .ok ⟨g.nodes.filter (fun n => ! (n.id == id)),
         g.edges.filter (fun e => ! incident id e)⟩
  else
    .error .notFound

/-- A consistent point-in-time view of the store, used for persistence and the
UI graph read. -/
def GraphStore.snapshot (g : GraphStore) : List Node × List Edge :=
  (g.nodes, g.edges)

/-- Depth modes of the context engine: selection-only, one-hop, two-hop. -/
inductive DepthMode where
  | F0
  | F1
  | F2
deriving DecidableEq, Repr

/-- Modelled from the spec: one undirected-hop expansion of a node-id
predicate — a node is kept if it already satisfied the predicate or is joined
by an edge (in either direction) to a node that did. -/
def expandOnce (g : GraphStore) (p : String → Bool) (id : String) : Bool :=
  p id || g.edges.any (fun e =>
    ((e.source == id) && p e.target) || ((e.target == id) && p e.source))

/-- Modelled from the spec: the node-id predicate of the context at each depth
mode — F0 is bare selection membership, F1 one expansion, F2 two. -/
def depthPred (g : GraphStore) (sel : List String) : DepthMode → String → Bool
  | .F0 => fun id => sel.contains id
  | .F1 => expandOnce g (fun id => sel.contains id)
  | .F2 => expandOnce g (expandOnce g (fun id => sel.contains id))

/-- Modelled from the spec: context-computation failures. -/
inductive ContextError where
  | emptySelection
  | unknownNode (id : String)
deriving DecidableEq, Repr

/-- Modelled from the spec: the result of a context computation — the context
nodes, the edges whose both endpoints lie in the context, and the dominant
module label. -/
structure ContextResult where
  context_nodes : List Node
  context_edges : List Edge
  dominant_module : Option String
deriving DecidableEq, Repr

/-- The first selected id that names no node of the store, if any. -/
def findFirstUnknown (g : GraphStore) (sel : List String) : Option String :=
  sel.find? (fun id => ! g.nodes.any (fun n => n.id == id))

/-- Modelled from the spec: the most frequent `module` label among the context
nodes, ties broken by first-seen order in the node ordering. -/
def dominantModule (nodes : List Node) : Option String :=
  let labels := nodes.map (fun n => n.module)
  labels.foldl
    (fun best l =>
      match best with
      | none => some l
      | some b => if labels.count l > labels.count b then some l else best)
    none

/-- Modelled from the spec: `computeContext(selectedIds, depthMode)`.  Fails
with `EmptySelectionError` on an empty selection and with `UnknownNodeError`
(naming the offending id) when a selected id is absent; otherwise returns the
context nodes at the requested depth, the induced edges, and the dominant
module. -/
def computeContext (g : GraphStore) (sel : List String) (d : DepthMode) :
    Except ContextError ContextResult :=
  if sel.isEmpty then
    .error .emptySelection
  else
    match findFirstUnknown g sel with
    | some badId => .error (.unknownNode badId)
    | none =>
      let p := depthPred g sel d
      .ok ⟨g.nodes.filter (fun n => p n.id),
           g.edges.filter (fun e => p e.source && p e.target),
           dominantModule (g.nodes.filter (fun n => p n.id))⟩

/-- The node ids of a context result. -/
def contextIds (r : ContextResult) : List String :=
  r.context_nodes.map (fun n => n.id)

/-- Modelled from the spec: one canvas owns an id, a display name and its own
graph store, persisted under a canvas-scoped namespace. -/
structure Canvas where
  id : String
  name : String
  store : GraphStore
deriving DecidableEq, Repr

/-- Modelled from the spec: canvas-registry failures. -/
inductive CanvasError where
  | notFound
  | protectedCanvas
  | duplicateId
deriving DecidableEq, Repr

/-- The reserved id of the protected default canvas (`'default'` in the
frontend CanvasManager). -/
def defaultCanvasId : String := "default"

/-- Modelled from the spec: the canvas registry — the canvases and the id of
the single active canvas (an explicit active pointer, swapped on
activation). -/
structure CanvasRegistry where
  canvases : List Canvas
  activeId : String
deriving DecidableEq, Repr

/-- Modelled from the spec: first-run registry state — only the default
canvas exists and it is active. -/
def CanvasRegistry.init : CanvasRegistry :=
  ⟨[⟨defaultCanvasId, "Default", GraphStore.empty⟩], defaultCanvasId⟩

/-- Modelled from the spec: `create(name)` with the freshly allocated id made
explicit; a collision with an existing id is a typed failure (the allocator
guarantees it never happens).  Creation does not auto-activate. -/
def CanvasRegistry.create (r : CanvasRegistry) (name id : String) :
    Except CanvasError CanvasRegistry :=
  if r.canvases.any (fun c => c.id == id) then
    .error .duplicateId
  else
    .ok ⟨r.canvases ++ [⟨id, name, GraphStore.empty⟩], r.activeId⟩

/-- Modelled from the spec: `activate(id)` — fails with `NotFoundError` if
unknown, otherwise swaps the active pointer to `id`. -/
def CanvasRegistry.activate (r : CanvasRegistry) (id : String) :
    Except CanvasError CanvasRegistry :=
  if r.canvases.any (fun c => c.id == id) then
    .ok ⟨r.canvases, id⟩
  else
    .error .notFound

/-- Modelled from the spec: `delete(id)` — fails with `ProtectedCanvasError`
for the default canvas and `NotFoundError` if unknown; otherwise removes that
canvas's record only, handing the active pointer back to the default canvas
when the deleted canvas was active. -/
def CanvasRegistry.delete (r : CanvasRegistry) (id : String) :
    Except CanvasError CanvasRegistry :=
  if id = defaultCanvasId then
    .error .protectedCanvas
  else if r.canvases.any (fun c => c.id == id) then
    .ok ⟨r.canvases.filter (fun c => ! (c.id == id)),
         if r.activeId = id then defaultCanvasId else r.activeId⟩
  else
    .error .notFound

/-- The registry the caller observes after a `delete` attempt: a typed
failure leaves the registry unchanged. -/
def deleteResult (r : CanvasRegistry) (id : String) : CanvasRegistry :=
  match r.delete id with
  | .ok r' => r'
  | .error _ => r

/-- A registry operation issued through the canvas-management interface. -/
inductive CanvasOp where
  | createOp (name id : String)
  | activateOp (id : String)
  | deleteOp (id : String)
deriving DecidableEq, Repr

/-- Run one registry operation; a typed failure leaves the registry
unchanged (no partial application). -/
def applyOp (r : CanvasRegistry) : CanvasOp → CanvasRegistry
  | .createOp name id =>
    match r.create name id with
    | .ok r' => r'
    | .error _ => r
  | .activateOp id =>
    match r.activate id with
    | .ok r' => r'
    | .error _ => r
  | .deleteOp id => deleteResult r id

/-- Run a sequence of registry operations from the first-run state. -/
def runOps (ops : List CanvasOp) : CanvasRegistry :=
  ops.foldl applyOp CanvasRegistry.init

/-- How many canvases the registry reports as active (`is_active` is derived
from the active pointer when listing). -/
def activeCount (r : CanvasRegistry) : Nat :=
  r.canvases.countP (fun c => c.id == r.activeId)

/-- A request to the edge-creation endpoint (`createEdge` in
src/frontend/src/api.js). -/
structure CreateEdgeRequest where
  source : String
  target : String
  justification : String
deriving DecidableEq, Repr

/-- Embedded from the first GraphCanvas version's `onConnect` handler
(src/unnamed/part_002): prompts for a justification and returns without
issuing a create request when the prompt is cancelled (`null`) or the entered
text is empty — the JS falsy guard `if (!justification) return`. -/
def onConnect (source target : String) (promptResult : Option String) :
    Option CreateEdgeRequest :=
  match promptResult with
  | none => none
  | some j => if j = "" then none else some ⟨source, target, j⟩

/-- Embedded from `handleEdgeConfirm` (src/frontend/src/App.jsx): forwards
the modal's justification to `createEdge`, guarding only that both endpoint
ids are present. -/
def handleEdgeConfirm (source target : Option String) (justification : String) :
    Option CreateEdgeRequest :=
  match source, target with
  | some s, some t => some ⟨s, t, justification⟩
  | _, _ => none

/-- A request to the context-computation endpoint (`calculateContext` in
src/frontend/src/api.js). -/
structure ContextRequest where
  selected_nodes : List String
  depth_mode : DepthMode
deriving DecidableEq, Repr

/-- Embedded from `handleContextCalculation` (src/frontend/src/App.jsx):
returns immediately, issuing no context request, when the selected-id list is
empty (`if (selectedNodeIds.length === 0) return`). -/
def handleContextCalculation (selectedNodeIds : List String)
    (depthMode : DepthMode) : Option ContextRequest :=
  if selectedNodeIds.length = 0 then none
  else some ⟨selectedNodeIds, depthMode⟩

/-- A paste event as the global paste handler observes it: the tag of the
focused element, whether the clipboard carries an image item, and the
clipboard text. -/
structure PasteEvent where
  activeTag : String
  hasImage : Bool
  text : String
deriving DecidableEq, Repr

/-- An ingestion request the paste handler can issue. -/
inductive IngestRequest where
  | ingestUrl (url : String)
  | uploadImageReq
deriving DecidableEq, Repr

/-- JavaScript's `\s` character class, as matched by the paste handler's
regex: tab, LF, VT, FF, CR, space, NBSP, Ogham space mark, the U+2000-200A
space separators, line/paragraph separators, narrow NBSP, medium mathematical
space, ideographic space, and the BOM. -/
def isJsWhitespace (c : Char) : Bool :=
  c.toNat = 0x9 || c.toNat = 0xA || c.toNat = 0xB || c.toNat = 0xC ||
  c.toNat = 0xD || c.toNat = 0x20 || c.toNat = 0xA0 || c.toNat = 0x1680 ||
  (0x2000 ≤ c.toNat && c.toNat ≤ 0x200A) ||
  c.toNat = 0x2028 || c.toNat = 0x2029 || c.toNat = 0x202F ||
  c.toNat = 0x205F || c.toNat = 0x3000 || c.toNat = 0xFEFF

/-- Character-level transliteration of the paste handler's URL regex: the
scheme prefix followed by a non-empty remainder free of `\s` characters. -/
def isFullUrlChars : List Char → Bool
  | 'h' :: 't' :: 't' :: 'p' :: rest =>
    match rest with
    | 's' :: ':' :: '/' :: '/' :: r =>
      (! r.isEmpty) && r.all (fun c => ! isJsWhitespace c)
    | ':' :: '/' :: '/' :: r =>
      (! r.isEmpty) && r.all (fun c => ! isJsWhitespace c)
    | _ => false
  | _ => false

/-- Embedded from the paste handler's regex `^(https?:\/\/[^\s]+)$`
(src/unnamed/part_002): the whole text is an `http://` or `https://` scheme
followed by at least one character, none of them whitespace. -/
def isFullUrl (s : String) : Bool :=
  isFullUrlChars s.data

/-- Embedded from the second GraphCanvas version's `handlePaste`
(src/unnamed/part_002): bails out when an input or textarea is focused;
otherwise handles a clipboard image first, then ingests the text if and only
if it matches the whole-string URL regex.  Returns the issued ingestion
requests and whether a skeleton node was optimistically appended to the
canvas node list. -/
def handlePaste (e : PasteEvent) : List IngestRequest × Bool :=
  if e.activeTag = "INPUT" ∨ e.activeTag = "TEXTAREA" then
    ([], false)
  else if e.hasImage then
    ([.uploadImageReq], true)
  else if e.text = "" then
    ([], false)
  else if isFullUrl e.text then
    ([.ingestUrl e.text], true)
  else
    ([], false)

lemma contains_iff_mem (sel : List String) (id : String) :
    sel.contains id = true ↔ id ∈ sel := by
  simp [List.contains, List.elem_iff]

lemma expandOnce_infl (g : GraphStore) (p : String → Bool) (id : String)
    (h : p id = true) : expandOnce g p id = true := by
  simp [expandOnce, h]

lemma mem_filter_mono {α : Type} (l : List α) (p q : α → Bool)
    (h : ∀ a, p a = true → q a = true) :
    ∀ a ∈ l.filter p, a ∈ l.filter q := by
  intro a ha
  rw [List.mem_filter] at ha ⊢
  exact ⟨ha.1, h a ha.2⟩

lemma length_filter_split {α : Type} (l : List α) (p : α → Bool) :
    (l.filter p).length + (l.filter (fun a => ! p a)).length = l.length := by
  induction l with
  | nil => rfl
  | cons a t ih =>
    by_cases h : p a = true
    · simp [List.filter, h, ← ih]
      omega
    · simp at h
      simp [List.filter, h, ← ih]
      omega

lemma computeContext_ok (g : GraphStore) (sel : List String) (d : DepthMode)
    (r : ContextResult) (h : computeContext g sel d = .ok r) :
    sel.isEmpty = false ∧ findFirstUnknown g sel = none ∧
    r.context_nodes = g.nodes.filter (fun n => depthPred g sel d n.id) ∧
    r.context_edges =
      g.edges.filter (fun e => depthPred g sel d e.source && depthPred g sel d e.target) := by
  unfold computeContext at h
  by_cases h1 : sel.isEmpty
  · simp [h1] at h
  · cases hf : findFirstUnknown g sel with
    | some b => simp [h1, hf] at h
    | none =>
      simp [h1, hf] at h
      refine ⟨by simpa using h1, rfl, ?_, ?_⟩
      · rw [← h]
      · rw [← h]

/-- A node fixture with the fields the engine inspects. -/
def mkNode (id : String) (t : NodeType) (m : String) : Node :=
  ⟨id, t, id, "", "", [], "Uncategorized", m, none, none⟩

/-- Scenario fixture: topic `T1`, modules `M1`/`M2`, child `C1`, with
hierarchical edges `C1→M1`, `M1→T1` and an associative edge `M2→C1`. -/
def gEx : GraphStore :=
  ⟨[mkNode "T1" .topic "General", mkNode "M1" .module "General",
    mkNode "C1" .child "General", mkNode "M2" .module "Payments"],
   [⟨"C1", "M1", "part of", .hierarchical⟩,
    ⟨"M1", "T1", "part of", .hierarchical⟩,
    ⟨"M2", "C1", "related", .associative⟩]⟩

/-- Extract the result of a successful context computation. -/
def okOr (x : Except ContextError ContextResult) : ContextResult :=
  match x with
  | .ok r => r
  | .error _ => ⟨[], [], none⟩

def rEx0 : ContextResult := okOr (computeContext gEx ["C1"] .F0)

def rEx1 : ContextResult := okOr (computeContext gEx ["C1"] .F1)

def rEx2 : ContextResult := okOr (computeContext gEx ["C1"] .F2)

/-- C1: for a fixed graph and selection, the context node-id sets returned by
`computeContext` grow monotonically with the depth mode: every id in the F0
context is in the F1 context, and every id in the F1 context is in the F2
context. -/
theorem context_monotonic_C1 (g : GraphStore) (sel : List String)
    (r0 r1 r2 : ContextResult)
    (h0 : computeContext g sel .F0 = .ok r0)
    (h1 : computeContext g sel .F1 = .ok r1)
    (h2 : computeContext g sel .F2 = .ok r2) :
    (∀ id, id ∈ contextIds r0 → id ∈ contextIds r1) ∧
    (∀ id, id ∈ contextIds r1 → id ∈ contextIds r2) := by
  obtain ⟨-, -, hn0, -⟩ := computeContext_ok g sel .F0 r0 h0
  obtain ⟨-, -, hn1, -⟩ := computeContext_ok g sel .F1 r1 h1
  obtain ⟨-, -, hn2, -⟩ := computeContext_ok g sel .F2 r2 h2
  have m01 : ∀ id, depthPred g sel .F0 id = true → depthPred g sel .F1 id = true :=
    fun id h => expandOnce_infl g _ id h
  have m12 : ∀ id, depthPred g sel .F1 id = true → depthPred g sel .F2 id = true :=
    fun id h => expandOnce_infl g _ id h
  constructor
  · intro id hid
    unfold contextIds at hid ⊢
    rw [hn0] at hid
    rw [hn1]
    obtain ⟨n, hn, rfl⟩ := List.mem_map.mp hid
    exact List.mem_map.mpr
      ⟨n, mem_filter_mono _ _ _ (fun a ha => m01 a.id ha) n hn, rfl⟩
  · intro id hid
    unfold contextIds at hid ⊢
    rw [hn1] at hid
    rw [hn2]
    obtain ⟨n, hn, rfl⟩ := List.mem_map.mp hid
    exact List.mem_map.mpr
      ⟨n, mem_filter_mono _ _ _ (fun a ha => m12 a.id ha) n hn, rfl⟩

/-- Witness for C1 on the scenario fixture: selection `{C1}` succeeds at all
three depths and monotonicity transports `C1` from the F0 context into the F2
context. -/
theorem context_monotonic_C1_witness :
    computeContext gEx ["C1"] .F0 = .ok rEx0 ∧
    computeContext gEx ["C1"] .F1 = .ok rEx1 ∧
    computeContext gEx ["C1"] .F2 = .ok rEx2 ∧
    "C1" ∈ contextIds rEx2 :=
  ⟨rfl, rfl, rfl,
   (context_monotonic_C1 gEx ["C1"] rEx0 rEx1 rEx2 rfl rfl rfl).2 "C1"
     ((context_monotonic_C1 gEx ["C1"] rEx0 rEx1 rEx2 rfl rfl rfl).1 "C1"
       (by decide))⟩

/-- C2: for every non-empty selection of known node ids, the F0 context
computation succeeds and returns exactly the selected nodes — every context
node's id is selected, and every selected id is realized by a context node
(no traversal, no silent drop). -/
theorem f0_exact_selection_C2 (g : GraphStore) (sel : List String)
    (hne : sel ≠ [])
    (hknown : ∀ id ∈ sel, ∃ n ∈ g.nodes, n.id = id) :
    ∃ r, computeContext g sel .F0 = .ok r ∧
      (∀ n ∈ r.context_nodes, n.id ∈ sel) ∧
      (∀ id ∈ sel, ∃ n ∈ r.context_nodes, n.id = id) := by
  have hempty : sel.isEmpty = false := by
    cases sel with
    | nil => exact absurd rfl hne
    | cons a tl => rfl
  have hfu : findFirstUnknown g sel = none := by
    unfold findFirstUnknown
    rw [List.find?_eq_none]
    intro id hid
    obtain ⟨n, hn, hnid⟩ := hknown id hid
    have hany : g.nodes.any (fun m => m.id == id) = true :=
      List.any_eq_true.mpr ⟨n, hn, by simp [hnid]⟩
    simp [hany]
  cases hres : computeContext g sel .F0 with
  | error err =>
    unfold computeContext at hres
    rw [hempty] at hres
    simp [hfu] at hres
  | ok r =>
    obtain ⟨-, -, hn, -⟩ := computeContext_ok g sel .F0 r hres
    refine ⟨r, rfl, ?_, ?_⟩
    · intro n hmem
      rw [hn, List.mem_filter] at hmem
      exact (contains_iff_mem sel n.id).mp hmem.2
    · intro id hid
      obtain ⟨n, hnmem, hnid⟩ := hknown id hid
      refine ⟨n, ?_, hnid⟩
      rw [hn, List.mem_filter]
      refine ⟨hnmem, ?_⟩
      show sel.contains n.id = true
      rw [contains_iff_mem, hnid]
      exact hid

/-- Witness for C2: selection `{C1}` is non-empty and known on the scenario
fixture, so the F0 computation succeeds with exactly the selected node. -/
theorem f0_exact_selection_C2_witness :
    (["C1"] : List String) ≠ [] ∧
    (∀ id ∈ ["C1"], ∃ n ∈ gEx.nodes, n.id = id) ∧
    ∃ r, computeContext gEx ["C1"] .F0 = .ok r ∧
      (∀ n ∈ r.context_nodes, n.id ∈ ["C1"]) ∧
      (∀ id ∈ ["C1"], ∃ n ∈ r.context_nodes, n.id = id) :=
  ⟨by decide, by decide,
   f0_exact_selection_C2 gEx ["C1"] (by decide) (by decide)⟩

/-- C7: `computeContext` is deterministic up to selection-set identity — two
successful calls on the same graph and depth whose selected-id lists contain
the same ids return identical (graph-order normalized) context node and edge
lists. -/
theorem determinism_C7 (g : GraphStore) (sel1 sel2 : List String)
    (d : DepthMode) (r1 r2 : ContextResult)
    (hset : ∀ id, id ∈ sel1 ↔ id ∈ sel2)
    (h1 : computeContext g sel1 d = .ok r1)
    (h2 : computeContext g sel2 d = .ok r2) :
    r1.context_nodes = r2.context_nodes ∧
    r1.context_edges = r2.context_edges := by
  have hc : (fun id => sel1.contains id) = (fun id => sel2.contains id) := by
    funext id
    rw [Bool.eq_iff_iff, contains_iff_mem, contains_iff_mem]
    exact hset id
  have hp : depthPred g sel1 d = depthPred g sel2 d := by
    cases d <;> simp only [depthPred, hc]
  obtain ⟨-, -, hn1, he1⟩ := computeContext_ok g sel1 d r1 h1
  obtain ⟨-, -, hn2, he2⟩ := computeContext_ok g sel2 d r2 h2
  rw [hn1, hn2, he1, he2, hp]
  exact ⟨rfl, rfl⟩

def rEx1' : ContextResult := okOr (computeContext gEx ["M1", "C1"] .F1)

def rEx1'' : ContextResult := okOr (computeContext gEx ["C1", "M1", "C1"] .F1)

/-- Witness for C7: the selections `[M1, C1]` and `[C1, M1, C1]` denote the
same id set, and the two successful F1 computations agree on nodes and
edges. -/
theorem determinism_C7_witness :
    computeContext gEx ["M1", "C1"] .F1 = .ok rEx1' ∧
    computeContext gEx ["C1", "M1", "C1"] .F1 = .ok rEx1'' ∧
    rEx1'.context_nodes = rEx1''.context_nodes ∧
    rEx1'.context_edges = rEx1''.context_edges := by
  have hset : ∀ (id : String), id ∈ ["M1", "C1"] ↔ id ∈ ["C1", "M1", "C1"] := by
    intro id
    simp only [List.mem_cons, List.not_mem_nil, or_false]
    tauto
  exact ⟨rfl, rfl,
    (determinism_C7 gEx ["M1", "C1"] ["C1", "M1", "C1"] .F1 rEx1' rEx1''
        hset rfl rfl).1,
    (determinism_C7 gEx ["M1", "C1"] ["C1", "M1", "C1"] .F1 rEx1' rEx1''
        hset rfl rfl).2⟩

/-- C3: an attempted hierarchical edge whose source rank is less than or
equal to its target rank (topic=0, module=1, child=2) fails with
`HierarchyViolationError`, and the store's edge set is unchanged. -/
theorem hierarchy_violation_C3 (g : GraphStore)
    (source target justification : String) (ns nt : Node)
    (hs : g.findNode source = some ns) (ht : g.findNode target = some nt)
    (hr : rank ns.node_type ≤ rank nt.node_type) :
    g.addEdge source target justification .hierarchical =
      .error .hierarchyViolation ∧
    addEdgeEdges g source target justification .hierarchical = g.edges := by
  have herr : g.addEdge source target justification .hierarchical =
      .error .hierarchyViolation := by
    have hgt : ¬ rank ns.node_type > rank nt.node_type := by omega
    unfold GraphStore.addEdge
    simp only [hs, ht]
    rw [if_pos ⟨trivial, hgt⟩]
  exact ⟨herr, by unfold addEdgeEdges; rw [herr]⟩

/-- Witness for C3 on the scenario fixture: the hierarchical edge `M1→C1`
(module rank 1 ≤ child rank 2) is rejected and the edge list stays intact. -/
theorem hierarchy_violation_C3_witness :
    gEx.findNode "M1" = some (mkNode "M1" .module "General") ∧
    gEx.findNode "C1" = some (mkNode "C1" .child "General") ∧
    gEx.addEdge "M1" "C1" "up" .hierarchical = .error .hierarchyViolation ∧
    addEdgeEdges gEx "M1" "C1" "up" .hierarchical = gEx.edges :=
  ⟨by decide, by decide,
   (hierarchy_violation_C3 gEx "M1" "C1" "up"
       (mkNode "M1" .module "General") (mkNode "C1" .child "General")
       (by decide) (by decide) (by decide)).1,
   (hierarchy_violation_C3 gEx "M1" "C1" "up"
       (mkNode "M1" .module "General") (mkNode "C1" .child "General")
       (by decide) (by decide) (by decide)).2⟩

/-- C4: a successful `deleteNode` removes exactly the incident edges (the
remaining edge count plus the incident count is the old edge count, and the
survivors are exactly the non-incident edges), the node is absent from the
snapshot, and a later context computation whose selection contains the
deleted id fails with `UnknownNodeError` instead of dropping the id. -/
theorem cascade_delete_C4 (g g' : GraphStore) (nid : String)
    (h : g.deleteNode nid = .ok g') :
    g'.edges = g.edges.filter (fun e => ! incident nid e) ∧
    g'.edges.length + (g.edges.filter (incident nid)).length = g.edges.length ∧
    (∀ n ∈ g'.snapshot.1, n.id ≠ nid) ∧
    (∀ (sel : List String) (d : DepthMode), nid ∈ sel →
      ∃ badId, computeContext g' sel d = .error (.unknownNode badId)) := by
  unfold GraphStore.deleteNode at h
  by_cases hex : g.nodes.any (fun n => n.id == nid) = true
  · rw [if_pos hex] at h
    have hg' : g' = ⟨g.nodes.filter (fun n => ! (n.id == nid)),
        g.edges.filter (fun e => ! incident nid e)⟩ := by
      cases h
      rfl
    subst hg'
    refine ⟨rfl, ?_, ?_, ?_⟩
    · show (g.edges.filter (fun e => ! incident nid e)).length +
          (g.edges.filter (incident nid)).length = g.edges.length
      have hsplit := length_filter_split g.edges (incident nid)
      omega
    · intro n hn
      simp only [GraphStore.snapshot, List.mem_filter] at hn
      simpa using hn.2
    · intro sel d hsel
      have hunk : ∃ badId, findFirstUnknown
          (⟨g.nodes.filter (fun n => ! (n.id == nid)),
            g.edges.filter (fun e => ! incident nid e)⟩ : GraphStore) sel =
          some badId := by
        rw [← Option.isSome_iff_exists]
        unfold findFirstUnknown
        rw [List.find?_isSome]
        refine ⟨nid, hsel, ?_⟩
        simp only [Bool.not_eq_true', List.any_eq_false]
        intro n hn
        rw [List.mem_filter] at hn
        simpa using hn.2
      obtain ⟨badId, hbad⟩ := hunk
      refine ⟨badId, ?_⟩
      unfold computeContext
      have hne : sel.isEmpty = false := by
        cases sel with
        | nil => cases hsel
        | cons a t => rfl
      rw [hne]
      simp [hbad]
  · rw [if_neg hex] at h
    cases h

/-- The store left after deleting `C1` from the scenario fixture. -/
def gExDel : GraphStore :=
  match gEx.deleteNode "C1" with
  | .ok g' => g'
  | .error _ => gEx

/-- Witness for C4 (Scenario 4): deleting `C1` removes both incident edges
(`C1→M1`, `M2→C1`), `C1` is gone from the snapshot, and re-selecting `C1`
fails with `UnknownNodeError`. -/
theorem cascade_delete_C4_witness :
    gEx.deleteNode "C1" = .ok gExDel ∧
    gExDel.edges.length + (gEx.edges.filter (incident "C1")).length =
      gEx.edges.length ∧
    (∀ n ∈ gExDel.snapshot.1, n.id ≠ "C1") ∧
    computeContext gExDel ["C1"] .F0 = .error (.unknownNode "C1") :=
  ⟨rfl, (cascade_delete_C4 gEx gExDel "C1" rfl).2.1,
   (cascade_delete_C4 gEx gExDel "C1" rfl).2.2.1, rfl⟩

/-- C5: deleting the default canvas fails with `ProtectedCanvasError` and
leaves the registry unchanged; deleting an unknown id fails with
`NotFoundError`; a successful delete removes exactly that canvas's record and
every sibling canvas's record survives untouched. -/
theorem canvas_delete_C5 :
    (∀ r : CanvasRegistry,
      r.delete defaultCanvasId = .error .protectedCanvas ∧
      deleteResult r defaultCanvasId = r) ∧
    (∀ (r : CanvasRegistry) (id : String),
      id ≠ defaultCanvasId → (∀ c ∈ r.canvases, c.id ≠ id) →
      r.delete id = .error .notFound) ∧
    (∀ (r r' : CanvasRegistry) (id : String), r.delete id = .ok r' →
      r'.canvases = r.canvases.filter (fun c => ! (c.id == id)) ∧
      ∀ c ∈ r.canvases, c.id ≠ id → c ∈ r'.canvases) := by
  refine ⟨?_, ?_, ?_⟩
  · intro r
    exact ⟨by simp [CanvasRegistry.delete], by simp [deleteResult, CanvasRegistry.delete]⟩
  · intro r id hne hall
    have hany : r.canvases.any (fun c => c.id == id) = false := by
      rw [List.any_eq_false]
      intro c hc
      simpa using hall c hc
    unfold CanvasRegistry.delete
    rw [if_neg hne]
    simp [hany]
  · intro r r' id h
    unfold CanvasRegistry.delete at h
    by_cases h1 : id = defaultCanvasId
    · rw [if_pos h1] at h
      cases h
    · rw [if_neg h1] at h
      by_cases h2 : r.canvases.any (fun c => c.id == id) = true
      · rw [if_pos h2] at h
        cases h
        refine ⟨rfl, ?_⟩
        intro c hc hcne
        rw [List.mem_filter]
        exact ⟨hc, by simpa using hcne⟩
      · rw [if_neg h2] at h
        cases h

/-- A registry fixture: the default canvas plus two user canvases. -/
def regEx : CanvasRegistry :=
  ⟨[⟨defaultCanvasId, "Default", GraphStore.empty⟩,
    ⟨"c2", "Project X", GraphStore.empty⟩,
    ⟨"c3", "Other", GraphStore.empty⟩], defaultCanvasId⟩

/-- The registry left after deleting `c2` from the fixture. -/
def regExDel : CanvasRegistry :=
  match regEx.delete "c2" with
  | .ok r => r
  | .error _ => regEx

/-- Witness for C5 (Scenario 5): deleting the default canvas is rejected with
the registry intact, deleting a missing id reports not-found, and deleting
`c2` removes exactly `c2` while sibling `c3` survives. -/
theorem canvas_delete_C5_witness :
    regEx.delete defaultCanvasId = .error .protectedCanvas ∧
    deleteResult regEx defaultCanvasId = regEx ∧
    regEx.delete "missing" = .error .notFound ∧
    regEx.delete "c2" = .ok regExDel ∧
    regExDel.canvases = regEx.canvases.filter (fun c => ! (c.id == "c2")) ∧
    (⟨"c3", "Other", GraphStore.empty⟩ : Canvas) ∈ regExDel.canvases :=
  ⟨(canvas_delete_C5.1 regEx).1, (canvas_delete_C5.1 regEx).2,
   canvas_delete_C5.2.1 regEx "missing" (by decide) (by decide), rfl,
   (canvas_delete_C5.2.2 regEx regExDel "c2" rfl).1,
   (canvas_delete_C5.2.2 regEx regExDel "c2" rfl).2
     ⟨"c3", "Other", GraphStore.empty⟩ (by decide) (by decide)⟩

/-- The registry invariant behind the single-active-canvas property: the
default canvas exists, canvas ids are collision-free, and the active pointer
names an existing canvas. -/
def RegInv (r : CanvasRegistry) : Prop :=
  defaultCanvasId ∈ r.canvases.map (fun c => c.id) ∧
  (r.canvases.map (fun c => c.id)).Nodup ∧
  r.activeId ∈ r.canvases.map (fun c => c.id)

lemma regInv_init : RegInv CanvasRegistry.init := by
  refine ⟨?_, ?_, ?_⟩ <;> simp [CanvasRegistry.init]

lemma applyOp_create_known (r : CanvasRegistry) (name id : String)
    (hex : r.canvases.any (fun c => c.id == id) = true) :
    applyOp r (.createOp name id) = r := by
  simp [applyOp, CanvasRegistry.create, hex]

lemma applyOp_create_fresh (r : CanvasRegistry) (name id : String)
    (hex : ¬ r.canvases.any (fun c => c.id == id) = true) :
    applyOp r (.createOp name id) =
      ⟨r.canvases ++ [⟨id, name, GraphStore.empty⟩], r.activeId⟩ := by
  simp [applyOp, CanvasRegistry.create, hex]

lemma applyOp_activate_known (r : CanvasRegistry) (id : String)
    (hex : r.canvases.any (fun c => c.id == id) = true) :
    applyOp r (.activateOp id) = ⟨r.canvases, id⟩ := by
  simp [applyOp, CanvasRegistry.activate, hex]

lemma applyOp_activate_unknown (r : CanvasRegistry) (id : String)
    (hex : ¬ r.canvases.any (fun c => c.id == id) = true) :
    applyOp r (.activateOp id) = r := by
  simp [applyOp, CanvasRegistry.activate, hex]

lemma applyOp_delete_default (r : CanvasRegistry) (id : String)
    (h1 : id = defaultCanvasId) :
    applyOp r (.deleteOp id) = r := by
  simp [applyOp, deleteResult, CanvasRegistry.delete, h1]

lemma applyOp_delete_known (r : CanvasRegistry) (id : String)
    (h1 : ¬ id = defaultCanvasId)
    (h2 : r.canvases.any (fun c => c.id == id) = true) :
    applyOp r (.deleteOp id) =
      ⟨r.canvases.filter (fun c => ! (c.id == id)),
       if r.activeId = id then defaultCanvasId else r.activeId⟩ := by
  simp [applyOp, deleteResult, CanvasRegistry.delete, h1, h2]

lemma applyOp_delete_unknown (r : CanvasRegistry) (id : String)
    (h1 : ¬ id = defaultCanvasId)
    (h2 : ¬ r.canvases.any (fun c => c.id == id) = true) :
    applyOp r (.deleteOp id) = r := by
  simp [applyOp, deleteResult, CanvasRegistry.delete, h1, h2]

lemma regInv_applyOp (r : CanvasRegistry) (op : CanvasOp) (h : RegInv r) :
    RegInv (applyOp r op) := by
  obtain ⟨hdef, hnd, hact⟩ := h
  cases op with
  | createOp name id =>
    by_cases hex : r.canvases.any (fun c => c.id == id) = true
    · rw [applyOp_create_known r name id hex]
      exact ⟨hdef, hnd, hact⟩
    · rw [applyOp_create_fresh r name id hex]
      have hfresh : id ∉ r.canvases.map (fun c => c.id) := by
        intro hmem
        obtain ⟨c, hc, hcid⟩ := List.mem_map.mp hmem
        rw [Bool.not_eq_true, List.any_eq_false] at hex
        exact hex c hc (by simp [hcid])
      refine ⟨?_, ?_, ?_⟩
      · simp only [List.map_append, List.mem_append]
        exact Or.inl hdef
      · simp only [List.map_append]
        rw [List.nodup_append]
        refine ⟨hnd, by simp, ?_⟩
        intro a ha hb
        simp only [List.map_cons, List.map_nil, List.mem_cons,
          List.not_mem_nil, or_false] at hb
        exact hfresh (hb ▸ ha)
      · simp only [List.map_append, List.mem_append]
        exact Or.inl hact
  | activateOp id =>
    by_cases hex : r.canvases.any (fun c => c.id == id) = true
    · rw [applyOp_activate_known r id hex]
      refine ⟨hdef, hnd, ?_⟩
      obtain ⟨c, hc, hcid⟩ := List.any_eq_true.mp hex
      exact List.mem_map.mpr ⟨c, hc, by simpa using hcid⟩
    · rw [applyOp_activate_unknown r id hex]
      exact ⟨hdef, hnd, hact⟩
  | deleteOp id =>
    by_cases h1 : id = defaultCanvasId
    · rw [applyOp_delete_default r id h1]
      exact ⟨hdef, hnd, hact⟩
    · by_cases h2 : r.canvases.any (fun c => c.id == id) = true
      · rw [applyOp_delete_known r id h1 h2]
        have hsub : (r.canvases.filter (fun c => ! (c.id == id))).map
            (fun c => c.id) |>.Sublist (r.canvases.map (fun c => c.id)) :=
          List.Sublist.map _ (List.filter_sublist _)
        have hdef' : defaultCanvasId ∈
            (r.canvases.filter (fun c => ! (c.id == id))).map (fun c => c.id) := by
          obtain ⟨c, hc, hcid⟩ := List.mem_map.mp hdef
          refine List.mem_map.mpr ⟨c, ?_, hcid⟩
          rw [List.mem_filter]
          refine ⟨hc, ?_⟩
          simp only [Bool.not_eq_eq_eq_not, Bool.not_true, beq_eq_false_iff_ne]
          intro hcontra
          exact h1 (by rw [← hcid, hcontra])
        refine ⟨hdef', hsub.nodup hnd, ?_⟩
        by_cases h3 : r.activeId = id
        · rw [if_pos h3]
          exact hdef'
        · rw [if_neg h3]
          obtain ⟨c, hc, hcid⟩ := List.mem_map.mp hact
          refine List.mem_map.mpr ⟨c, ?_, hcid⟩
          rw [List.mem_filter]
          refine ⟨hc, ?_⟩
          simp only [Bool.not_eq_eq_eq_not, Bool.not_true, beq_eq_false_iff_ne]
          intro hcontra
          exact h3 (by rw [← hcid, hcontra])
      · rw [applyOp_delete_unknown r id h1 h2]
        exact ⟨hdef, hnd, hact⟩

lemma regInv_runOps (ops : List CanvasOp) : RegInv (runOps ops) := by
  suffices h : ∀ (l : List CanvasOp) (r : CanvasRegistry),
      RegInv r → RegInv (l.foldl applyOp r) from
    h ops CanvasRegistry.init regInv_init
  intro l
  induction l with
  | nil => intro r h; exact h
  | cons op t ih => intro r h; exact ih _ (regInv_applyOp r op h)

lemma activeCount_eq_one (r : CanvasRegistry) (h : RegInv r) :
    activeCount r = 1 := by
  obtain ⟨-, hnd, hact⟩ := h
  unfold activeCount
  have h1 : r.canvases.countP (fun c => c.id == r.activeId) =
      (r.canvases.map (fun c => c.id)).count r.activeId := by
    rw [List.count, List.countP_map]
    rfl
  rw [h1]
  exact List.count_eq_one_of_mem hnd hact

/-- C6: starting from the first-run registry (default canvas active), any
sequence of create/activate/delete operations leaves exactly one canvas
active, and activating a known id makes that canvas the single active one. -/
theorem single_active_C6 :
    (∀ ops : List CanvasOp, activeCount (runOps ops) = 1) ∧
    (∀ (ops : List CanvasOp) (id : String),
      (runOps ops).canvases.any (fun c => c.id == id) = true →
      (applyOp (runOps ops) (.activateOp id)).activeId = id ∧
      activeCount (applyOp (runOps ops) (.activateOp id)) = 1) := by
  constructor
  · intro ops
    exact activeCount_eq_one _ (regInv_runOps ops)
  · intro ops id hknown
    constructor
    · rw [applyOp_activate_known _ id hknown]
    · exact activeCount_eq_one _ (regInv_applyOp _ _ (regInv_runOps ops))

/-- A sample operation sequence: create two canvases, work on `c2`, then
delete it while it is active. -/
def opsEx : List CanvasOp :=
  [.createOp "Project X" "c2", .activateOp "c2",
   .createOp "Other" "c3", .deleteOp "c2"]

/-- Witness for C6: after the sample sequence exactly one canvas is active,
and activating the known canvas `c3` makes it the single active one. -/
theorem single_active_C6_witness :
    activeCount (runOps opsEx) = 1 ∧
    (runOps opsEx).canvases.any (fun c => c.id == "c3") = true ∧
    (applyOp (runOps opsEx) (.activateOp "c3")).activeId = "c3" ∧
    activeCount (applyOp (runOps opsEx) (.activateOp "c3")) = 1 :=
  ⟨single_active_C6.1 opsEx, by decide,
   (single_active_C6.2 opsEx "c3" (by decide)).1,
   (single_active_C6.2 opsEx "c3" (by decide)).2⟩

lemma addEdge_empty_justification (g : GraphStore) (s t : String)
    (k : EdgeKind) : ∃ err, g.addEdge s t "" k = .error err := by
  unfold GraphStore.addEdge
  cases hfs : g.findNode s with
  | none => exact ⟨.notFound, rfl⟩
  | some ns =>
    cases hft : g.findNode t with
    | none => exact ⟨.notFound, rfl⟩
    | some nt =>
      dsimp only
      by_cases h1 : k = .hierarchical ∧ ¬ rank ns.node_type > rank nt.node_type
      · exact ⟨.hierarchyViolation, by rw [if_pos h1]⟩
      · by_cases h2 : s = t
        · exact ⟨.selfLoop, by rw [if_neg h1, if_pos h2]⟩
        · exact ⟨.emptyJustification, by rw [if_neg h1, if_neg h2, if_pos rfl]⟩

/-- C8: edge creation requires a non-empty justification — an `addEdge` with
an empty justification never changes the edge set, the canvas `onConnect`
handler drops cancelled or empty prompts without issuing a create request,
and a successful `addEdge` preserves the invariant that every stored edge has
a non-empty justification. -/
theorem justification_required_C8 :
    (∀ (g : GraphStore) (s t : String) (k : EdgeKind),
      addEdgeEdges g s t "" k = g.edges) ∧
    (∀ s t : String,
      onConnect s t none = none ∧ onConnect s t (some "") = none) ∧
    (∀ (g g' : GraphStore) (s t j : String) (k : EdgeKind),
      (∀ e ∈ g.edges, e.justification ≠ "") →
      g.addEdge s t j k = .ok g' →
      ∀ e ∈ g'.edges, e.justification ≠ "") := by
  refine ⟨?_, ?_, ?_⟩
  · intro g s t k
    obtain ⟨err, herr⟩ := addEdge_empty_justification g s t k
    unfold addEdgeEdges
    rw [herr]
  · intro s t
    exact ⟨rfl, rfl⟩
  · intro g g' s t j k hinv hok
    unfold GraphStore.addEdge at hok
    cases hfs : g.findNode s with
    | none => rw [hfs] at hok; cases hok
    | some ns =>
      rw [hfs] at hok
      cases hft : g.findNode t with
      | none => rw [hft] at hok; cases hok
      | some nt =>
        rw [hft] at hok
        dsimp only at hok
        by_cases h1 : k = .hierarchical ∧ ¬ rank ns.node_type > rank nt.node_type
        · rw [if_pos h1] at hok; cases hok
        · rw [if_neg h1] at hok
          by_cases h2 : s = t
          · rw [if_pos h2] at hok; cases hok
          · rw [if_neg h2] at hok
            by_cases h3 : j = ""
            · rw [if_pos h3] at hok; cases hok
            · rw [if_neg h3] at hok
              cases hok
              intro e he
              have he' : e ∈ g.edges.filter
                  (fun e => ! (e.source == s && e.target == t)) ++
                  [⟨s, t, j, k⟩] := he
              rw [List.mem_append] at he'
              cases he' with
              | inl hl => exact hinv e (List.mem_filter.mp hl).1
              | inr hr =>
                rw [List.mem_singleton] at hr
                rw [hr]
                exact h3

/-- The store left after adding the associative edge `C1→T1` to the
fixture. -/
def gExAdd : GraphStore :=
  match gEx.addEdge "C1" "T1" "deep link" .associative with
  | .ok g' => g'
  | .error _ => gEx

/-- Witness for C8: an empty-justification attempt leaves the fixture's edges
unchanged, the `onConnect` guard drops cancelled/empty prompts, and after a
justified `addEdge` every stored edge still has a non-empty justification. -/
theorem justification_required_C8_witness :
    addEdgeEdges gEx "T1" "M1" "" .associative = gEx.edges ∧
    onConnect "a" "b" none = none ∧
    onConnect "a" "b" (some "") = none ∧
    gEx.addEdge "C1" "T1" "deep link" .associative = .ok gExAdd ∧
    (∀ e ∈ gExAdd.edges, e.justification ≠ "") :=
  ⟨justification_required_C8.1 gEx "T1" "M1" .associative,
   (justification_required_C8.2.1 "a" "b").1,
   (justification_required_C8.2.1 "a" "b").2,
   rfl,
   justification_required_C8.2.2 gEx gExAdd "C1" "T1" "deep link" .associative
     (by decide) rfl⟩

/-- C9: the App's context-calculation handler never issues a request for an
empty selection, so the engine's `EmptySelectionError` branch is unreachable
from this caller: any request it does issue cannot produce that error. -/
theorem no_empty_context_request_C9 :
    (∀ d : DepthMode, handleContextCalculation [] d = none) ∧
    (∀ (ids : List String) (d : DepthMode) (req : ContextRequest)
       (g : GraphStore),
      handleContextCalculation ids d = some req →
      computeContext g req.selected_nodes req.depth_mode ≠
        .error .emptySelection) := by
  constructor
  · intro d
    rfl
  · intro ids d req g h
    unfold handleContextCalculation at h
    by_cases hlen : ids.length = 0
    · rw [if_pos hlen] at h
      cases h
    · rw [if_neg hlen] at h
      cases h
      unfold computeContext
      have hne : ids.isEmpty = false := by
        cases ids with
        | nil => exact absurd rfl hlen
        | cons a tl => rfl
      rw [hne]
      cases hf : findFirstUnknown g ids <;> simp [hf]

/-- Witness for C9: the empty selection issues no request, and the request
for `{C1}` can never hit the empty-selection branch of the engine. -/
theorem no_empty_context_request_C9_witness :
    handleContextCalculation [] .F0 = none ∧
    handleContextCalculation ["C1"] .F1 = some ⟨["C1"], .F1⟩ ∧
    computeContext GraphStore.empty ["C1"] .F1 ≠ .error .emptySelection :=
  ⟨no_empty_context_request_C9.1 .F0, rfl,
   no_empty_context_request_C9.2 ["C1"] .F1 ⟨["C1"], .F1⟩ GraphStore.empty rfl⟩

/-- C10: the global paste handler issues a URL ingestion only when no input
or textarea is focused and the clipboard text is, in its entirety, a single
http/https URL with no whitespace (and then for exactly that text); for a
text-only paste whose text is not such a URL it issues no ingestion request
and leaves the canvas node list untouched. -/
theorem paste_url_gate_C10 :
    (∀ (e : PasteEvent) (url : String),
      IngestRequest.ingestUrl url ∈ (handlePaste e).1 →
      e.activeTag ≠ "INPUT" ∧ e.activeTag ≠ "TEXTAREA" ∧
      isFullUrl e.text = true ∧ url = e.text) ∧
    (∀ e : PasteEvent, e.hasImage = false → isFullUrl e.text = false →
      (handlePaste e).1 = [] ∧ (handlePaste e).2 = false) := by
  constructor
  · intro e url hmem
    unfold handlePaste at hmem
    by_cases h1 : e.activeTag = "INPUT" ∨ e.activeTag = "TEXTAREA"
    · rw [if_pos h1] at hmem
      simp at hmem
    · rw [if_neg h1] at hmem
      push_neg at h1
      by_cases h2 : e.hasImage = true
      · rw [if_pos h2] at hmem
        simp at hmem
      · rw [if_neg h2] at hmem
        by_cases h3 : e.text = ""
        · rw [if_pos h3] at hmem
          simp at hmem
        · rw [if_neg h3] at hmem
          by_cases h4 : isFullUrl e.text = true
          · rw [if_pos h4] at hmem
            have hurl : url = e.text := by simpa using hmem
            exact ⟨h1.1, h1.2, h4, hurl⟩
          · rw [if_neg h4] at hmem
            simp at hmem
  · intro e himg hurl
    unfold handlePaste
    by_cases h1 : e.activeTag = "INPUT" ∨ e.activeTag = "TEXTAREA"
    · rw [if_pos h1]
      exact ⟨rfl, rfl⟩
    · rw [if_neg h1, himg]
      by_cases h3 : e.text = ""
      · rw [if_pos h3]
        exact ⟨rfl, rfl⟩
      · rw [if_neg h3, hurl]
        exact ⟨rfl, rfl⟩

/-- Witness for C10: pasting a whole https URL with the body focused issues
exactly that URL's ingestion, while pasting plain text with a space issues
nothing and adds no node. -/
theorem paste_url_gate_C10_witness :
    IngestRequest.ingestUrl "https://example.com/x" ∈
      (handlePaste ⟨"BODY", false, "https://example.com/x"⟩).1 ∧
    isFullUrl "https://example.com/x" = true ∧
    (handlePaste ⟨"BODY", false, "hello world"⟩).1 = [] ∧
    (handlePaste ⟨"BODY", false, "hello world"⟩).2 = false :=
  ⟨by decide,
   (paste_url_gate_C10.1 ⟨"BODY", false, "https://example.com/x"⟩
      "https://example.com/x" (by decide)).2.2.1,
   (paste_url_gate_C10.2 ⟨"BODY", false, "hello world"⟩ rfl (by decide)).1,
   (paste_url_gate_C10.2 ⟨"BODY", false, "hello world"⟩ rfl (by decide)).2⟩
